import Mathlib

/-!
Shallow embedding of the SRM-UGC edge worker (src/unnamed/part_000).

JavaScript numbers are modelled as extended rationals (`JSNum`): finite values
are exact rationals, plus NaN and the two infinities.  Arithmetic is exact
rather than IEEE binary64: on the integer counters the two agree (float64 is
exact on integers below 2^53, beyond any feasibly reachable count), so the
claims settled here are insensitive to the difference; properties decided by
binary64 rounding — the rating-average computation rounded by toFixed(1) at a
decimal tie, or the full `Number(string)` grammar on attacker-chosen strings
— are out of this embedding's scope and are not asserted by any theorem
below.  The two key-value namespaces
(SRM_COUNTS, SRM_RATELIMIT) are modelled as string-keyed partial maps holding
the literal strings the worker writes; reads go through a model of the
ECMAScript `Number(string)` coercion and writes through a model of
`String(number)` / `Number.prototype.toFixed(1)`.  External HTTP collaborators
(the catalog fetch, hCaptcha, the GitHub release/asset/issue APIs, the WHATWG
URL constructor) are passed in as oracle parameters, and the submission
handler additionally returns the ordered list of external calls it issued.
-/

namespace SRM

/-- Model of a JavaScript number: NaN, the infinities, or an exact rational. -/
inductive JSNum where
  | nan
  | posInf
  | negInf
  | num (q : ℚ)
deriving DecidableEq

/-- JavaScript addition on `JSNum`. -/
def jadd : JSNum → JSNum → JSNum
  | .nan, _ => .nan
  | _, .nan => .nan
  | .posInf, .negInf => .nan
  | .negInf, .posInf => .nan
  | .posInf, _ => .posInf
  | _, .posInf => .posInf
  | .negInf, _ => .negInf
  | _, .negInf => .negInf
  | .num a, .num b => .num (a + b)

/-- JavaScript multiplication on `JSNum`. -/
def jmul : JSNum → JSNum → JSNum
  | .nan, _ => .nan
  | _, .nan => .nan
  | .posInf, .posInf => .posInf
  | .posInf, .negInf => .negInf
  | .negInf, .posInf => .negInf
  | .negInf, .negInf => .posInf
  | .posInf, .num q => if q = 0 then .nan else if 0 < q then .posInf else .negInf
  | .num q, .posInf => if q = 0 then .nan else if 0 < q then .posInf else .negInf
  | .negInf, .num q => if q = 0 then .nan else if 0 < q then .negInf else .posInf
  | .num q, .negInf => if q = 0 then .nan else if 0 < q then .negInf else .posInf
  | .num a, .num b => .num (a * b)

/-- JavaScript division on `JSNum` (division by zero gives a signed infinity,
`0/0` gives NaN). -/
def jdiv : JSNum → JSNum → JSNum
  | .nan, _ => .nan
  | _, .nan => .nan
  | .posInf, .posInf => .nan
  | .posInf, .negInf => .nan
  | .negInf, .posInf => .nan
  | .negInf, .negInf => .nan
  | .posInf, .num q => if 0 ≤ q then .posInf else .negInf
  | .negInf, .num q => if 0 ≤ q then .negInf else .posInf
  | .num _, .posInf => .num 0
  | .num _, .negInf => .num 0
  | .num a, .num b =>
      if b = 0 then (if a = 0 then .nan else if 0 < a then .posInf else .negInf)
      else .num (a / b)

/-- JavaScript `<` comparison: any comparison against NaN is false. -/
def jlt : JSNum → JSNum → Bool
  | .nan, _ => false
  | _, .nan => false
  | .negInf, .negInf => false
  | .negInf, _ => true
  | _, .negInf => false
  | .posInf, _ => false
  | .num _, .posInf => true
  | .num a, .num b => decide (a < b)

/-- JavaScript `>` comparison. -/
def jgt (a b : JSNum) : Bool := jlt b a

/-- JavaScript strict equality on numbers (`NaN === NaN` is false). -/
def jstrictEq : JSNum → JSNum → Bool
  | .num a, .num b => decide (a = b)
  | .posInf, .posInf => true
  | .negInf, .negInf => true
  | _, _ => false

/-- Negation of a `JSNum`. -/
def jneg : JSNum → JSNum
  | .nan => .nan
  | .posInf => .negInf
  | .negInf => .posInf
  | .num q => .num (-q)

/-- Model of a JavaScript value as far as the worker inspects request bodies:
undefined, null, booleans, numbers and strings. -/
inductive JSVal where
  | undef
  | null
  | bool (b : Bool)
  | numv (n : JSNum)
  | str (s : String)
deriving DecidableEq

/-- JavaScript truthiness. -/
def jsTruthy : JSVal → Bool
  | .undef => false
  | .null => false
  | .bool b => b
  | .numv .nan => false
  | .numv (.num q) => decide (q ≠ 0)
  | .numv _ => true
  | .str s => decide (s ≠ "")

/-- The JavaScript `a || b` operator. -/
def jsOr (a b : JSVal) : JSVal := if jsTruthy a then a else b

/-- The JavaScript `a ?? b` operator. -/
def jsCoalesce (a b : JSVal) : JSVal :=
  if a = .undef ∨ a = .null then b else a

/-- Decimal digits of a natural number, most significant first (fuel-driven so
that it reduces definitionally). -/
def natDigitsAux : ℕ → ℕ → List ℕ
  | 0, _ => []
  | fuel + 1, n => if n < 10 then [n] else natDigitsAux fuel (n / 10) ++ [n % 10]

/-- Decimal digits of a natural number, most significant first. -/
def natDigits (n : ℕ) : List ℕ := natDigitsAux (n + 1) n

/-- Value of a most-significant-first digit list. -/
def digitsVal (l : List ℕ) : ℕ := l.foldl (fun a d => 10 * a + d) 0

/-- Character for a single decimal digit. -/
def digitChar (d : ℕ) : Char := Char.ofNat (48 + d)

/-- Decimal representation of a natural number as characters. -/
def natToChars (n : ℕ) : List Char := (natDigits n).map digitChar

/-- Decimal representation of a natural number (the string `String(n)` JavaScript
produces for a nonnegative integer). -/
def natToString (n : ℕ) : String := ⟨natToChars n⟩

/-- Whitespace characters recognized by the model of JavaScript string trimming
and numeric coercion (ASCII whitespace plus no-break space). -/
def isWsChar (c : Char) : Bool :=
  decide (c.toNat = 32 ∨ c.toNat = 9 ∨ c.toNat = 10 ∨ c.toNat = 13 ∨
    c.toNat = 11 ∨ c.toNat = 12 ∨ c.toNat = 160)

/-- Decimal digit test on characters. -/
def isDigitChar (c : Char) : Bool := decide (48 ≤ c.toNat ∧ c.toNat ≤ 57)

/-- Trim leading and trailing whitespace from a character list. -/
def trimChars (l : List Char) : List Char :=
  ((l.dropWhile isWsChar).reverse.dropWhile isWsChar).reverse

/-- Numeric value of a list of decimal digit characters. -/
def charsVal (l : List Char) : ℕ := l.foldl (fun a c => 10 * a + (c.toNat - 48)) 0

/-- Parse an unsigned decimal numeral (`digits`, `digits.digits`, `.digits` or
`digits.`), the fragment of the ECMAScript string numeric grammar the worker
can encounter; anything else is not a number. -/
def parseDecimal (l : List Char) : Option ℚ :=
  let ipart := l.takeWhile isDigitChar
  let rest := l.dropWhile isDigitChar
  match rest with
  | [] => if ipart.isEmpty then none else some (charsVal ipart : ℚ)
  | '.' :: frac =>
      if frac.all isDigitChar && !(ipart.isEmpty && frac.isEmpty) then
        some ((charsVal ipart : ℚ) + (charsVal frac : ℚ) / 10 ^ frac.length)
      else none
  | _ => none

/-- The characters of the literal `Infinity`. -/
def infinityChars : List Char := ['I', 'n', 'f', 'i', 'n', 'i', 't', 'y']

/-- Parse an unsigned magnitude: `Infinity` or a decimal numeral. -/
def parseMagnitude (l : List Char) : Option JSNum :=
  if l = infinityChars then some .posInf
  else (parseDecimal l).map (fun q => .num q)

/-- Numeric coercion of an already-trimmed character list (the empty string
coerces to `0`, an optional sign precedes the magnitude, anything unparsable
is NaN). -/
def jsNumOfTrimmed : List Char → JSNum
  | [] => .num 0
  | c :: r =>
      if c = '+' then (parseMagnitude r).getD .nan
      else if c = '-' then ((parseMagnitude r).map jneg).getD .nan
      else (parseMagnitude (c :: r)).getD .nan

/-- Model of the ECMAScript `Number(string)` coercion on the fragment the
settled claims exercise: plain decimal numerals, `Infinity`, empty or
whitespace-only strings (0), and unparsable strings (NaN).  Exponent and hex
literal forms and float64 rounding of long numerals are not modelled; no
theorem below applies this function outside the modelled fragment. -/
def jsNumberOfString (s : String) : JSNum := jsNumOfTrimmed (trimChars s.data)

/-- Rounding step of `toFixed(1)`: the numerator over 10 of a nonnegative
rational rounded half-up to one decimal digit. -/
def fixedNat (q : ℚ) : ℕ := (⌊q * 10 + 1 / 2⌋).toNat

/-- One-decimal rounding (round half away from zero on the magnitude), the
numeric value `toFixed(1)` denotes. -/
def round1 (q : ℚ) : ℚ := (fixedNat q : ℚ) / 10

/-- Character rendering of `q.toFixed(1)` for a finite value. -/
def toFixed1Chars (q : ℚ) : List Char :=
  if q < 0 then
    '-' :: (natToChars (fixedNat (-q) / 10) ++ '.' :: [digitChar (fixedNat (-q) % 10)])
  else
    natToChars (fixedNat q / 10) ++ '.' :: [digitChar (fixedNat q % 10)]

/-- Model of `Number.prototype.toFixed(1)`. -/
def toFixed1 : JSNum → String
  | .nan => "NaN"
  | .posInf => "Infinity"
  | .negInf => "-Infinity"
  | .num q => ⟨toFixed1Chars q⟩

/-- Fractional decimal expansion used by `jsNumToString` (fuel-bounded; every
value the worker prints is an integer, so the fuel is never exhausted on
reachable values). -/
def fracChars : ℕ → ℚ → List Char
  | 0, _ => []
  | fuel + 1, x =>
      if x = 0 then []
      else
        let d := (⌊x * 10⌋).toNat
        digitChar d :: fracChars fuel (x * 10 - (d : ℚ))

/-- Character rendering of `String(q)` for a finite nonnegative value. -/
def ratToCharsNN (q : ℚ) : List Char :=
  natToChars (⌊q⌋).toNat ++
    (if q - ((⌊q⌋).toNat : ℚ) = 0 then [] else '.' :: fracChars 20 (q - ((⌊q⌋).toNat : ℚ)))

/-- Character rendering of `String(q)` for a finite value. -/
def ratToChars (q : ℚ) : List Char :=
  if q < 0 then '-' :: ratToCharsNN (-q) else ratToCharsNN q

/-- Model of the JavaScript `String(number)` coercion. -/
def jsNumToString : JSNum → String
  | .nan => "NaN"
  | .posInf => "Infinity"
  | .negInf => "-Infinity"
  | .num q => ⟨ratToChars q⟩

/-- The JavaScript `String(value)` coercion on the values the worker handles. -/
def jsToString : JSVal → String
  | .undef => "undefined"
  | .null => "null"
  | .bool true => "true"
  | .bool false => "false"
  | .numv n => jsNumToString n
  | .str s => s

/-- The JavaScript `Number(value)` coercion on the values the worker handles. -/
def jsToNumber : JSVal → JSNum
  | .undef => .nan
  | .null => .num 0
  | .bool true => .num 1
  | .bool false => .num 0
  | .numv n => n
  | .str s => jsNumberOfString s

/-- The SRM_COUNTS namespace: a string-keyed partial map of strings. -/
def Store : Type := String → Option String

/-- KV `put` on the counts store. -/
def Store.put (st : Store) (k v : String) : Store :=
  fun k2 => if k2 = k then some v else st k2

/-- The empty counts store. -/
def Store.empty : Store := fun _ => none

/-- The SRM_RATELIMIT namespace: values are stored together with the
`expirationTtl` they were written with. -/
def RLStore : Type := String → Option (String × ℕ)

/-- KV `put` with TTL on the rate-limit store. -/
def RLStore.put (st : RLStore) (k v : String) (ttl : ℕ) : RLStore :=
  fun k2 => if k2 = k then some (v, ttl) else st k2

/-- The empty rate-limit store. -/
def RLStore.empty : RLStore := fun _ => none

/-- The worker's mutable state: the two KV namespaces. -/
structure KVState where
  counts : Store
  rl : RLStore

/-- Lift a KV `get` result into a JavaScript value (a missing key reads as
`null`). -/
def kvVal : Option String → JSVal
  | none => .null
  | some s => .str s

/-- Parsed JSON body of a /like or /rate request; a body that is not valid
JSON is replaced by `{}` (both fields undefined) by the
`req.json().catch(() => ({}))` in the worker. -/
structure ReqBody where
  id : JSVal
  rating : JSVal
deriving DecidableEq

/-- The body `req.json().catch(() => ({}))` yields on a malformed JSON body. -/
def emptyBody : ReqBody := ⟨.undef, .undef⟩

/-- The string `String(body.id || "")` the like/rate handlers derive. -/
def bodyIdStr (body : ReqBody) : String := jsToString (jsOr body.id (.str ""))

/-- The number `Number(body.rating || 0)` the rate handler derives. -/
def bodyRatingNum (body : ReqBody) : JSNum :=
  jsToNumber (jsOr body.rating (.numv (.num 0)))

/-- Rate-limit marker key for a like. -/
def likeKey (id clientIp : String) : String := "like:" ++ id ++ ":" ++ clientIp

/-- Rate-limit marker key for a rating. -/
def rateKey (id clientIp : String) : String := "rate:" ++ id ++ ":" ++ clientIp

/-- The value `Number((await SRM_COUNTS.get(key)) || "0")` of a counter read
with the string-`"0"` fallback (used by like, download and track). -/
def readCount0 (o : Option String) : JSNum := jsToNumber (jsOr (kvVal o) (.str "0"))

/-- The value `Number((await SRM_COUNTS.get(key)) || 0)` of a counter read with
the numeric-`0` fallback (used by rate). -/
def readCountN (o : Option String) : JSNum :=
  jsToNumber (jsOr (kvVal o) (.numv (.num 0)))

/-- Result of the /like handler. -/
inductive LikeRes where
  | err (status : ℕ) (msg : String)
  | ok (id : String) (likes : JSNum)
deriving DecidableEq

/-- Model of `handleLike` (src/unnamed/part_000 lines 233-244).
`clientIp` is the client identity `ip(req)` derives from the connecting-IP
headers. -/
def handleLike (st : KVState) (body : ReqBody) (clientIp : String) :
    LikeRes × KVState :=
  let id := bodyIdStr body
  if id = "" then (.err 400 "Missing id", st)
  else
    match st.rl (likeKey id clientIp) with
    | some _ => (.err 429 "Rate limited", st)
    | none =>
        let rl2 := st.rl.put (likeKey id clientIp) "1" 86400
        let cur := readCount0 (st.counts ("likes:" ++ id))
        let next := jadd cur (.num 1)
        (.ok id next, ⟨st.counts.put ("likes:" ++ id) (jsNumToString next), rl2⟩)

/-- Result of the /rate handler. -/
inductive RateRes where
  | err (status : ℕ) (msg : String)
  | ok (id : String) (rating : JSNum) (totalRatings : JSNum)
deriving DecidableEq

/-- Model of `handleRate` (src/unnamed/part_000 lines 246-267).  The average
arithmetic is carried out in exact rationals where the worker uses binary64;
the theorems below therefore only assert this handler's validation outcome,
its count updates and its store/marker writes (where the two arithmetics
agree, NaN included), never the rounded numeric value of a stored finite
average. -/
def handleRate (st : KVState) (body : ReqBody) (clientIp : String) :
    RateRes × KVState :=
  let id := bodyIdStr body
  let rating := bodyRatingNum body
  if id = "" ∨ jlt rating (.num 1) ∨ jgt rating (.num 5) then
    (.err 400 "Invalid rating (must be 1-5)", st)
  else
    match st.rl (rateKey id clientIp) with
    | some _ => (.err 429 "Already rated this item", st)
    | none =>
        let rl2 := st.rl.put (rateKey id clientIp) "1" (86400 * 7)
        let oldRating := readCountN (st.counts ("rating:" ++ id))
        let oldCount := readCountN (st.counts ("rating_count:" ++ id))
        let newCount := jadd oldCount (.num 1)
        let newRating :=
          if jstrictEq oldCount (.num 0) then rating
          else jdiv (jadd (jmul oldRating oldCount) rating) newCount
        let counts2 :=
          (st.counts.put ("rating:" ++ id) (toFixed1 newRating)).put
            ("rating_count:" ++ id) (jsNumToString newCount)
        (.ok id (jsNumberOfString (toFixed1 newRating)) newCount, ⟨counts2, rl2⟩)

/-- Parsed JSON body of a /download/track request. -/
structure TrackBody where
  itemId : JSVal
  fileName : JSVal
deriving DecidableEq

/-- Result of the /download/track handler. -/
inductive TrackRes where
  | err (status : ℕ) (msg : String)
  | ok (itemId : String) (downloads : JSNum) (fileName : String)
deriving DecidableEq

/-- Model of `handleDownloadTrack` (src/unnamed/part_000 lines 377-385). -/
def handleDownloadTrack (st : KVState) (body : TrackBody) : TrackRes × KVState :=
  let itemId := jsToString (jsOr body.itemId (.str ""))
  let fileName := jsToString (jsOr body.fileName (.str ""))
  if itemId = "" then (.err 400 "Missing itemId", st)
  else
    let cur := readCount0 (st.counts ("downloads:" ++ itemId))
    (.ok itemId (jadd cur (.num 1)) fileName,
     ⟨st.counts.put ("downloads:" ++ itemId) (jsNumToString (jadd cur (.num 1))),
      st.rl⟩)

/-- The fixed allow-list of asset hosts (`ALLOWED_ASSET_HOSTS`). -/
def ALLOWED_ASSET_HOSTS : List String :=
  ["github.com", "raw.githubusercontent.com",
   "github-releases.githubusercontent.com", "objects.githubusercontent.com",
   "uploads.github.com"]

/-- Result of the /download handler. -/
inductive DlRes where
  | err (status : ℕ) (msg : String)
  | upstreamFail (status : ℕ)
  | proxy
deriving DecidableEq

/-- Model of `handleDownload` (src/unnamed/part_000 lines 356-375).
`parsedHost` is the result of `new URL(asset).hostname`: `none` when the URL
constructor throws, otherwise the extracted hostname.  `upstreamOk` and
`upstreamStatus` describe the response of the upstream asset fetch.  The third
component of the result records whether the upstream fetch was performed. -/
def handleDownload (st : KVState) (id : String) (parsedHost : Option String)
    (upstreamOk : Bool) (upstreamStatus : ℕ) : DlRes × KVState × Bool :=
  match parsedHost with
  | none => (.err 400 "Invalid asset url", st, false)
  | some h =>
      if h ∉ ALLOWED_ASSET_HOSTS then (.err 400 "Disallowed asset host", st, false)
      else if ¬upstreamOk then (.upstreamFail upstreamStatus, st, true)
      else if id ≠ "" then
        let cur := readCount0 (st.counts ("downloads:" ++ id))
        (.proxy,
         ⟨st.counts.put ("downloads:" ++ id) (jsNumToString (jadd cur (.num 1))),
          st.rl⟩, true)
      else (.proxy, st, true)

/-- A catalog item as the worker sees it after JSON parsing: the fields the
worker reads or overwrites, plus all remaining properties (carried opaquely in
`rest` and never touched by the merge). -/
structure Item where
  id : Option JSVal
  number : Option JSVal
  likes : Option JSNum
  downloads : Option JSNum
  rating : Option JSNum
  totalRatings : Option JSNum
  rest : List (String × JSVal)
deriving DecidableEq

/-- A property access on an item: an absent property reads as `undefined`. -/
def propVal : Option JSVal → JSVal
  | none => .undef
  | some v => v

/-- A numeric snapshot property as a JavaScript value. -/
def numProp : Option JSNum → JSVal
  | none => .undef
  | some n => .numv n

/-- The string `String(it.id ?? it.number ?? "")` used as the counter key in
the collection view. -/
def itemKey (it : Item) : String :=
  jsToString (jsCoalesce (jsCoalesce (propVal it.id) (propVal it.number)) (.str ""))

/-- The merged object `{...it, likes: Number(likes || it.likes || 0), ...}`
built by both content views from the four live-counter reads under `key`. -/
def enrichItem (counts : Store) (key : String) (it : Item) : Item :=
  { it with
    likes := some (jsToNumber (jsOr (jsOr (kvVal (counts ("likes:" ++ key)))
      (numProp it.likes)) (.numv (.num 0)))),
    downloads := some (jsToNumber (jsOr (jsOr (kvVal (counts ("downloads:" ++ key)))
      (numProp it.downloads)) (.numv (.num 0)))),
    rating := some (if jsTruthy (kvVal (counts ("rating:" ++ key))) then
        jsToNumber (kvVal (counts ("rating:" ++ key)))
      else jsToNumber (jsOr (numProp it.rating) (.numv (.num 0)))),
    totalRatings := some (jsToNumber (jsOr (jsOr (kvVal (counts ("rating_count:" ++ key)))
      (numProp it.totalRatings)) (.numv (.num 0)))) }

/-- Result of the /content handler. -/
inductive ContentRes where
  | err (status : ℕ) (msg : String)
  | ok (items : List Item)
deriving DecidableEq

/-- The per-item merge step of `handleContent`: an item whose derived key is
empty is returned unmerged. -/
def mergeOne (counts : Store) (it : Item) : Item :=
  let key := itemKey it
  if key = "" then it else enrichItem counts key it

/-- Model of `handleContent` (src/unnamed/part_000 lines 179-204).
`fetchOk` is whether the catalog fetch responded ok; `parsedItems` is
`data.items` when it is an array (`none` models a malformed body or a
non-array `items`, degraded to the empty collection). -/
def handleContent (fetchOk : Bool) (parsedItems : Option (List Item))
    (counts : Store) : ContentRes :=
  if ¬fetchOk then .err 502 "Upstream fetch failed"
  else .ok ((parsedItems.getD []).map (mergeOne counts))

/-- The matching test of `handleContentById`:
`String(it.id) === id || String(it.number) === id`. -/
def matchesId (reqId : String) (it : Item) : Bool :=
  jsToString (propVal it.id) == reqId || jsToString (propVal it.number) == reqId

/-- Result of the /content/{id} handler. -/
inductive ItemRes where
  | err (status : ℕ) (msg : String)
  | ok (item : Item)
deriving DecidableEq

/-- Model of `handleContentById` (src/unnamed/part_000 lines 206-227); note
the enrichment keys use the requested id string. -/
def handleContentById (fetchOk : Bool) (parsedItems : Option (List Item))
    (reqId : String) (counts : Store) : ItemRes :=
  if ¬fetchOk then .err 502 "Upstream fetch failed"
  else
    match (parsedItems.getD []).find? (matchesId reqId) with
    | none => .err 404 "Item not found"
    | some it => .ok (enrichItem counts reqId it)

/-- The helper `norm`: `String(v ?? "").trim()` on an optional form value. -/
def norm (v : Option String) : String := ⟨trimChars (v.getD "").data⟩

/-- String trim used on split fragments. -/
def strTrim (s : String) : String := ⟨trimChars s.data⟩

/-- The helper `splitCSV`: split on commas, trim fragments, drop empties. -/
def splitCSV (v : Option String) : List String :=
  (((norm v).splitOn ",").map strTrim).filter (fun s => s ≠ "")

/-- The helper `splitLines`: split on line breaks, trim fragments, drop
empties (a trailing carriage return is removed by the trim). -/
def splitLines (v : Option String) : List String :=
  (((norm v).splitOn "\n").map strTrim).filter (fun s => s ≠ "")

/-- Character class kept by `sanitize` (`[a-zA-Z0-9._-]`). -/
def keepChar (c : Char) : Bool :=
  decide ((48 ≤ c.toNat ∧ c.toNat ≤ 57) ∨ (65 ≤ c.toNat ∧ c.toNat ≤ 90) ∨
    (97 ≤ c.toNat ∧ c.toNat ≤ 122) ∨ c.toNat = 46 ∨ c.toNat = 95 ∨ c.toNat = 45)

/-- The helper `sanitize`: replace disallowed characters by underscores and
truncate to 120 characters. -/
def sanitize (name : String) : String :=
  ⟨(name.data.map (fun c => if keepChar c then c else '_')).take 120⟩

/-- The static extension-to-classification table of `getFileType`. -/
def fileTypes : List (String × String) :=
  [("json", "Setup File"), ("zip", "Archive"), ("rar", "Archive"),
   ("7z", "Archive"), ("pdf", "Documentation"), ("txt", "Text File"),
   ("md", "Documentation"), ("stl", "3D Model"), ("obj", "3D Model"),
   ("ini", "Config File"), ("cfg", "Config File"), ("xml", "Config File"),
   ("jpg", "Image"), ("jpeg", "Image"), ("png", "Image"), ("gif", "Image"),
   ("mp4", "Video"), ("avi", "Video"), ("mov", "Video")]

/-- The helper `getFileType`: classify by lowercased final extension,
defaulting to `"File"`. -/
def getFileType (filename : String) : String :=
  match (filename.splitOn ".").getLast? with
  | none => "File"
  | some ext => ((fileTypes.lookup ext.toLower).getD "File")

/-- An attached file of a multipart submission (name and byte size). -/
structure FileRec where
  name : String
  size : ℕ
deriving DecidableEq

/-- The uploaded-asset record the worker accumulates per file. -/
structure FileMeta where
  name : String
  url : String
  size : ℕ
  type : String
deriving DecidableEq

/-- The non-file fields of a multipart submission (absent entries are
`undefined`), the captcha token, and the `files`-field attachments. -/
structure SubmitForm where
  title : Option String
  category : Option String
  game : Option String
  description : Option String
  author : Option String
  longDescription : Option String
  version : Option String
  car : Option String
  track : Option String
  compatibility : Option String
  requirements : Option String
  installation : Option String
  tags : Option String
  mediaUrls : Option String
  license : Option String
  notes : Option String
  captchaToken : Option String
  files : List FileRec

/-- The normalized metadata `handleSubmit` builds from the form. -/
structure SubmitMeta where
  title : String
  category : String
  game : String
  description : String
  author : String
  longDescription : String
  version : String
  car : String
  track : String
  compatibility : String
  requirements : List String
  installation : List String
  tags : List String
  mediaUrls : List String
  license : String
  notes : String
deriving DecidableEq

/-- Normalization of the form fields (src/unnamed/part_000 lines 398-417). -/
def buildMeta (f : SubmitForm) : SubmitMeta where
  title := norm f.title
  category := norm f.category
  game := norm f.game
  description := norm f.description
  author := norm f.author
  longDescription := norm f.longDescription
  version := norm f.version
  car := norm f.car
  track := norm f.track
  compatibility := norm f.compatibility
  requirements := splitLines f.requirements
  installation := splitLines f.installation
  tags := splitCSV f.tags
  mediaUrls := splitLines f.mediaUrls
  license := norm f.license
  notes := norm f.notes

/-- External calls the submission flow can issue, in order. -/
inductive ExtCall where
  | captchaVerify
  | releaseLookup
  | releaseCreate
  | uploadAsset (idx : ℕ) (name : String)
  | issueCreate
deriving DecidableEq

/-- Responses of the external collaborators of `handleSubmit`: the hCaptcha
verdict, the monthly-release lookup and creation, the per-index asset upload
(`some url` on success) and the issue creation. -/
structure SubmitOracle where
  captchaOk : Bool
  releaseLookup : Option ℕ
  releaseCreate : Option ℕ
  uploadUrl : ℕ → Option String
  issueResult : Option (ℕ × String)

/-- Result of the /submit handler (a thrown error surfaces through the
router's catch-all as a 500 with the error message). -/
inductive SubmitRes where
  | err (status : ℕ) (msg : String)
  | ok (message : String) (issueUrl : String) (submissionId : ℕ)
deriving DecidableEq

/-- Model of `verifyCaptcha` (src/unnamed/part_000 lines 84-94) together with
whether it issued the external verification request: with no configured secret
it succeeds without calling out, with a secret and an empty token it fails
without calling out, otherwise the external verdict decides. -/
def verifyCaptchaM (secret : Option String) (token : String) (oracleOk : Bool) :
    Bool × List ExtCall :=
  match secret with
  | none => (true, [])
  | some _ => if token = "" then (false, []) else (oracleOk, [.captchaVerify])

/-- The per-file loop of `handleSubmit` (lines 435-457): size check, then
upload, accumulating asset records; a failure aborts with the error and the
calls made so far. -/
def uploadFiles (maxB : JSNum) (orc : SubmitOracle) :
    ℕ → List FileRec → (List FileMeta × List ExtCall) ⊕ (SubmitRes × List ExtCall)
  | _, [] => .inl ([], [])
  | idx, f :: fs =>
      if jgt (.num (f.size : ℚ)) maxB then
        .inr (.err 413 ("File too large: " ++ f.name ++ " (" ++ natToString f.size
          ++ " > " ++ jsNumToString maxB ++ ")"), [])
      else
        let safe := sanitize f.name
        match orc.uploadUrl idx with
        | none => .inr (.err 502 ("Asset upload failed for " ++ f.name),
            [.uploadAsset idx safe])
        | some url =>
            match uploadFiles maxB orc (idx + 1) fs with
            | .inl (ms, tr) =>
                .inl (⟨safe, url, f.size, getFileType f.name⟩ :: ms,
                  .uploadAsset idx safe :: tr)
            | .inr (res, tr) => .inr (res, .uploadAsset idx safe :: tr)

/-- Upload loop of `handleSubmit` followed by `createIssue` (whose rendered
markdown body is opaque to the external oracle); `tr` is the trace of calls
already issued. -/
def submitUpload (maxB : JSNum) (files : List FileRec) (orc : SubmitOracle)
    (tr : List ExtCall) : SubmitRes × List ExtCall :=
  match uploadFiles maxB orc 0 files with
  | .inr (res, tru) => (res, tr ++ tru)
  | .inl (_, tru) =>
      match orc.issueResult with
      | none => (.err 500 "Issue creation failed", tr ++ tru ++ [.issueCreate])
      | some (n, u) =>
          (.ok "Submission created successfully! It will be reviewed and published soon."
            u n, tr ++ tru ++ [.issueCreate])

/-- Release resolution of `monthlyRelease`: tag lookup, then creation; a
creation failure is thrown and surfaces as a 500 through the router. -/
def submitAfterCaptcha (maxB : JSNum) (files : List FileRec) (orc : SubmitOracle) :
    SubmitRes × List ExtCall :=
  match orc.releaseLookup with
  | some _ => submitUpload maxB files orc [ExtCall.releaseLookup]
  | none =>
      match orc.releaseCreate with
      | none => (.err 500 "Failed to create release",
          [ExtCall.releaseLookup, ExtCall.releaseCreate])
      | some _ => submitUpload maxB files orc
          [ExtCall.releaseLookup, ExtCall.releaseCreate]

/-- Model of `handleSubmit` (src/unnamed/part_000 lines 387-469).
`secret` is `env.HCAPTCHA_SECRET`, `maxFileBytes` is `env.MAX_FILE_BYTES`,
`isMultipart` is whether the content type contains `multipart/form-data`.
The second component is the ordered list of external calls issued. -/
def handleSubmit (secret : Option String) (maxFileBytes : Option String)
    (isMultipart : Bool) (form : SubmitForm) (orc : SubmitOracle) :
    SubmitRes × List ExtCall :=
  if ¬isMultipart then (.err 415 "Use multipart/form-data", [])
  else
    let meta := buildMeta form
    let token := jsToString (jsOr (propVal ((form.captchaToken).map .str)) (.str ""))
    if meta.title = "" ∨ meta.category = "" ∨ meta.game = "" ∨
        meta.description = "" ∨ meta.author = "" then
      (.err 400 "Missing required fields", [])
    else
      match verifyCaptchaM secret token orc.captchaOk with
      | (false, tr) => (.err 400 "Captcha failed", tr)
      | (true, tr) =>
          let maxB := jsToNumber (jsCoalesce (propVal ((maxFileBytes).map .str))
            (.str "104857600"))
          let (res, tr2) := submitAfterCaptcha maxB form.files orc
          (res, tr ++ tr2)

/-- A snapshot item is JSON-clean when its numeric counters, having come out
of a JSON document, are finite numbers (JSON has no NaN or infinities). -/
def cleanItem (it : Item) : Prop :=
  (∀ n ∈ it.likes, ∃ q : ℚ, n = JSNum.num q) ∧
  (∀ n ∈ it.downloads, ∃ q : ℚ, n = JSNum.num q) ∧
  (∀ n ∈ it.rating, ∃ q : ℚ, n = JSNum.num q) ∧
  (∀ n ∈ it.totalRatings, ∃ q : ℚ, n = JSNum.num q)

/-- The merge contract for one enriched item under counter key `key`: live
counter if present and non-empty (cast to a number), else the snapshot field,
else `0`; all other fields of the source are preserved. -/
def mergeFieldSpec (counts : Store) (key : String) (src merged : Item) : Prop :=
  merged.id = src.id ∧ merged.number = src.number ∧ merged.rest = src.rest ∧
  (∀ s, counts ("likes:" ++ key) = some s → s ≠ "" →
    merged.likes = some (jsNumberOfString s)) ∧
  ((counts ("likes:" ++ key) = none ∨ counts ("likes:" ++ key) = some "") →
    merged.likes = some ((src.likes).getD (.num 0))) ∧
  (∀ s, counts ("downloads:" ++ key) = some s → s ≠ "" →
    merged.downloads = some (jsNumberOfString s)) ∧
  ((counts ("downloads:" ++ key) = none ∨ counts ("downloads:" ++ key) = some "") →
    merged.downloads = some ((src.downloads).getD (.num 0))) ∧
  (∀ s, counts ("rating:" ++ key) = some s → s ≠ "" →
    merged.rating = some (jsNumberOfString s)) ∧
  ((counts ("rating:" ++ key) = none ∨ counts ("rating:" ++ key) = some "") →
    merged.rating = some ((src.rating).getD (.num 0))) ∧
  (∀ s, counts ("rating_count:" ++ key) = some s → s ≠ "" →
    merged.totalRatings = some (jsNumberOfString s)) ∧
  ((counts ("rating_count:" ++ key) = none ∨ counts ("rating_count:" ++ key) = some "") →
    merged.totalRatings = some ((src.totalRatings).getD (.num 0)))

/-- A stored counter value is well formed when the key is absent, empty, or a
decimal natural numeral (every value the worker itself writes to the likes,
downloads and rating_count families has this shape). -/
def natValOk (o : Option String) : Prop :=
  o = none ∨ o = some "" ∨ ∃ n : ℕ, o = some (natToString n)

/-- The counter did not decrease between two stored values, both read the way
the worker reads counters (absent keys read as zero). -/
def counterGe (old new : Option String) : Prop :=
  ∃ a b : ℕ, readCount0 old = .num (a : ℚ) ∧ readCount0 new = .num (b : ℚ) ∧ a ≤ b

/-- Well-formedness of the three monotone counter families of a counts store. -/
def wfCounts (c : Store) : Prop :=
  ∀ id2 : String, natValOk (c ("likes:" ++ id2)) ∧
    natValOk (c ("downloads:" ++ id2)) ∧ natValOk (c ("rating_count:" ++ id2))

/-- No key present in the first store is absent from the second. -/
def storeKept (c1 c2 : Store) : Prop := ∀ k, (c1 k).isSome → (c2 k).isSome

/-- Every likes, downloads and rating_count counter is at least its previous
value. -/
def familiesGe (c1 c2 : Store) : Prop :=
  ∀ id2 : String, counterGe (c1 ("likes:" ++ id2)) (c2 ("likes:" ++ id2)) ∧
    counterGe (c1 ("downloads:" ++ id2)) (c2 ("downloads:" ++ id2)) ∧
    counterGe (c1 ("rating_count:" ++ id2)) (c2 ("rating_count:" ++ id2))

/-- An empty worker state (no counters, no markers). -/
def wSt0 : KVState := ⟨Store.empty, RLStore.empty⟩

/-- A valid rate request body: item `1`, rating `4`. -/
def wBodyOk : ReqBody := ⟨.str "1", .numv (.num 4)⟩

/-- A track request body for item `1`. -/
def wTrackBody : TrackBody := ⟨.str "1", .str "setup.json"⟩

/-- A catalog item carried only by the legacy `number` field. -/
def wItemLegacy : Item := ⟨none, some (.numv (.num 42)), none, none, none, none, []⟩

/-- A catalog item with id `7` and a snapshot likes counter of `3`. -/
def wItem1 : Item :=
  ⟨some (.str "7"), none, some (.num 3), none, none, none, [("title", .str "Car")]⟩

/-- A counts store holding a live likes counter for item `7`. -/
def wCounts1 : Store := fun k => if k = "likes:7" then some "9" else none

/-- A submission form missing every required field. -/
def wFormEmpty : SubmitForm :=
  ⟨none, none, none, none, none, none, none, none, none, none, none, none, none,
   none, none, none, none, []⟩

/-- A complete submission form with one small and one oversized attachment. -/
def wFormBig : SubmitForm :=
  ⟨some "T", some "car", some "AC", some "D", some "A", none, none, none, none,
   none, none, none, none, none, none, none, none,
   [⟨"small.zip", 10⟩, ⟨"big.zip", 1000⟩]⟩

/-- An oracle whose external calls all succeed. -/
def wOrc : SubmitOracle := ⟨true, some 11, none, fun _ => some "u", some (5, "url")⟩

/-!
Lemma layer: decimal printing and parsing round trips, key disequalities,
store laws.
-/

theorem digitsVal_append_singleton (l : List ℕ) (d : ℕ) :
    digitsVal (l ++ [d]) = 10 * digitsVal l + d := by
  simp [digitsVal, List.foldl_append]

theorem natDigitsAux_spec (fuel : ℕ) :
    ∀ n, n < fuel → digitsVal (natDigitsAux fuel n) = n ∧
      (∀ d ∈ natDigitsAux fuel n, d < 10) ∧ natDigitsAux fuel n ≠ [] ∧
      (∀ c ∈ (natDigitsAux fuel n).head?, c < 10) := by
  induction fuel with
  | zero => intro n hn; omega
  | succ fuel ih =>
      intro n hn
      by_cases h10 : n < 10
      · simp [natDigitsAux, h10, digitsVal]
      · have hrec := ih (n / 10) (by omega)
        obtain ⟨hval, hdig, hne, hhead⟩ := hrec
        have hunf : natDigitsAux (fuel + 1) n =
            natDigitsAux fuel (n / 10) ++ [n % 10] := by
          simp [natDigitsAux, h10]
        refine ⟨?_, ?_, ?_, ?_⟩
        · rw [hunf, digitsVal_append_singleton, hval]; omega
        · intro d hd
          rw [hunf] at hd
          rcases List.mem_append.1 hd with h | h
          · exact hdig d h
          · simp at h; omega
        · rw [hunf]; simp
        · intro c hc
          rw [hunf] at hc
          rcases hx : natDigitsAux fuel (n / 10) with _ | ⟨a, l⟩
          · exact absurd hx hne
          · rw [hx] at hc hhead
            simp at hc
            subst hc
            exact hhead _ (by simp)

theorem digitsVal_natDigits (n : ℕ) : digitsVal (natDigits n) = n :=
  (natDigitsAux_spec (n + 1) n (by omega)).1

theorem natDigits_lt_ten (n : ℕ) : ∀ d ∈ natDigits n, d < 10 :=
  (natDigitsAux_spec (n + 1) n (by omega)).2.1

theorem natDigits_ne_nil (n : ℕ) : natDigits n ≠ [] :=
  (natDigitsAux_spec (n + 1) n (by omega)).2.2.1

theorem digitChar_toNat (d : ℕ) (h : d < 10) : (digitChar d).toNat = 48 + d := by
  interval_cases d <;> decide

theorem isDigitChar_digitChar (d : ℕ) (h : d < 10) :
    isDigitChar (digitChar d) = true := by
  simp [isDigitChar, digitChar_toNat d h]; omega

theorem natToChars_all_digit (n : ℕ) :
    ∀ c ∈ natToChars n, isDigitChar c = true := by
  intro c hc
  rcases List.mem_map.1 hc with ⟨d, hd, rfl⟩
  exact isDigitChar_digitChar d (natDigits_lt_ten n d hd)

theorem natToChars_ne_nil (n : ℕ) : natToChars n ≠ [] := by
  simp [natToChars]
  exact natDigits_ne_nil n

theorem charsVal_natToChars (n : ℕ) : charsVal (natToChars n) = n := by
  have h : charsVal (natToChars n) = digitsVal (natDigits n) := by
    rw [charsVal, natToChars, List.foldl_map]
    have : ∀ (l : List ℕ) (a : ℕ), (∀ d ∈ l, d < 10) →
        l.foldl (fun acc d => 10 * acc + ((digitChar d).toNat - 48)) a =
        l.foldl (fun acc d => 10 * acc + d) a := by
      intro l
      induction l with
      | nil => intro a _; rfl
      | cons d l ihl =>
          intro a hl
          have hd : d < 10 := hl d (by simp)
          simp only [List.foldl_cons, digitChar_toNat d hd]
          rw [ihl _ (fun x hx => hl x (by simp [hx]))]
          congr 1
          omega
    exact this (natDigits n) 0 (natDigits_lt_ten n)
  rw [h, digitsVal_natDigits]

theorem isDigitChar_not_ws (c : Char) (h : isDigitChar c = true) :
    isWsChar c = false := by
  simp [isDigitChar] at h
  simp [isWsChar]
  omega

theorem dropWhile_eq_self_of_all_false {p : Char → Bool} :
    ∀ l : List Char, (∀ c ∈ l, p c = false) → l.dropWhile p = l := by
  intro l hl
  cases l with
  | nil => rfl
  | cons c r => simp [List.dropWhile, hl c (by simp)]

theorem trimChars_eq_self (l : List Char) (h : ∀ c ∈ l, isWsChar c = false) :
    trimChars l = l := by
  unfold trimChars
  rw [dropWhile_eq_self_of_all_false l h,
    dropWhile_eq_self_of_all_false l.reverse (by intro c hc; exact h c (List.mem_reverse.1 hc)),
    List.reverse_reverse]

theorem takeWhile_append_stop {p : Char → Bool} :
    ∀ (l : List Char) (c0 : Char) (r : List Char), (∀ c ∈ l, p c = true) →
      p c0 = false →
      (l ++ c0 :: r).takeWhile p = l ∧ (l ++ c0 :: r).dropWhile p = c0 :: r := by
  intro l
  induction l with
  | nil => intro c0 r _ hc0; simp [List.takeWhile, List.dropWhile, hc0]
  | cons a l ihl =>
      intro c0 r hl hc0
      have ha : p a = true := hl a (by simp)
      have := ihl c0 r (fun x hx => hl x (by simp [hx])) hc0
      simp [List.takeWhile, List.dropWhile, ha, this.1, this.2]

theorem takeWhile_eq_self_of_all {p : Char → Bool} :
    ∀ l : List Char, (∀ c ∈ l, p c = true) →
      l.takeWhile p = l ∧ l.dropWhile p = [] := by
  intro l
  induction l with
  | nil => intro _; simp
  | cons a l ihl =>
      intro hl
      have ha : p a = true := hl a (by simp)
      have := ihl (fun x hx => hl x (by simp [hx]))
      simp [List.takeWhile, List.dropWhile, ha, this.1, this.2]

theorem natToChars_head_digit (n : ℕ) :
    ∃ c r, natToChars n = c :: r ∧ isDigitChar c = true := by
  cases h : natToChars n with
  | nil => exact absurd h (natToChars_ne_nil n)
  | cons c r =>
      exact ⟨c, r, rfl, natToChars_all_digit n c (by rw [h]; simp)⟩

theorem parseDecimal_natToChars (n : ℕ) :
    parseDecimal (natToChars n) = some (n : ℚ) := by
  have hall := takeWhile_eq_self_of_all (natToChars n) (natToChars_all_digit n)
  have hne : (natToChars n).isEmpty = false := by
    rw [List.isEmpty_eq_false]
    exact natToChars_ne_nil n
  simp only [parseDecimal, hall.1, hall.2, hne]
  rw [charsVal_natToChars]
  simp

theorem digit_ne_plus (c : Char) (h : isDigitChar c = true) : c ≠ '+' := by
  intro he; rw [he] at h; exact absurd h (by decide)

theorem digit_ne_minus (c : Char) (h : isDigitChar c = true) : c ≠ '-' := by
  intro he; rw [he] at h; exact absurd h (by decide)

theorem jsNumOfTrimmed_digits_head (c : Char) (r : List Char)
    (h : isDigitChar c = true) :
    jsNumOfTrimmed (c :: r) = (parseMagnitude (c :: r)).getD .nan := by
  simp [jsNumOfTrimmed, digit_ne_plus c h, digit_ne_minus c h]

theorem parseMagnitude_digits_head (c : Char) (r : List Char)
    (h : isDigitChar c = true) :
    parseMagnitude (c :: r) = (parseDecimal (c :: r)).map (fun q => .num q) := by
  have : c :: r ≠ infinityChars := by
    intro he
    have hc : c = 'I' := by
      have := congrArg List.head? he
      simpa [infinityChars] using this
    rw [hc] at h
    exact absurd h (by decide)
  simp [parseMagnitude, this]

theorem jsNumberOfString_natToString (n : ℕ) :
    jsNumberOfString (natToString n) = .num (n : ℚ) := by
  show jsNumOfTrimmed (trimChars (natToChars n)) = _
  rw [trimChars_eq_self _ (fun c hc => isDigitChar_not_ws c (natToChars_all_digit n c hc))]
  obtain ⟨c, r, hcr, hdig⟩ := natToChars_head_digit n
  rw [hcr, jsNumOfTrimmed_digits_head c r hdig, parseMagnitude_digits_head c r hdig,
    ← hcr, parseDecimal_natToChars]
  rfl

theorem charsVal_singleton_digit (d : ℕ) (h : d < 10) :
    charsVal [digitChar d] = d := by
  simp [charsVal, digitChar_toNat d h]

theorem jsNumberOfString_toFixed1 (q : ℚ) (hq : 0 ≤ q) :
    jsNumberOfString (toFixed1 (.num q)) = .num (round1 q) := by
  have hneg : ¬(q < 0) := not_lt.2 hq
  have hchars : toFixed1Chars q =
      natToChars (fixedNat q / 10) ++ '.' :: [digitChar (fixedNat q % 10)] := by
    simp [toFixed1Chars, hneg]
  have hmod : fixedNat q % 10 < 10 := Nat.mod_lt _ (by omega)
  have hws : ∀ c ∈ toFixed1Chars q, isWsChar c = false := by
    intro c hc
    rw [hchars] at hc
    rcases List.mem_append.1 hc with h | h
    · exact isDigitChar_not_ws c (natToChars_all_digit _ c h)
    · rcases List.mem_cons.1 h with h | h
      · rw [h]; decide
      · simp at h
        rw [h]
        exact isDigitChar_not_ws _ (isDigitChar_digitChar _ hmod)
  show jsNumOfTrimmed (trimChars (toFixed1Chars q)) = _
  rw [trimChars_eq_self _ hws, hchars]
  obtain ⟨c, r, hcr, hdig⟩ := natToChars_head_digit (fixedNat q / 10)
  rw [hcr, List.cons_append, jsNumOfTrimmed_digits_head c _ hdig,
    parseMagnitude_digits_head c _ hdig, ← List.cons_append, ← hcr]
  have hsplit := takeWhile_append_stop (p := isDigitChar) (natToChars (fixedNat q / 10))
    '.' [digitChar (fixedNat q % 10)] (natToChars_all_digit _) (by decide)
  have hne : (natToChars (fixedNat q / 10)).isEmpty = false := by
    rw [List.isEmpty_eq_false]
    exact natToChars_ne_nil _
  simp only [parseDecimal, hsplit.1, hsplit.2, hne]
  rw [charsVal_natToChars]
  have hfr : [digitChar (fixedNat q % 10)].all isDigitChar = true := by
    simp [isDigitChar_digitChar _ hmod]
  simp only [hfr, charsVal_singleton_digit _ hmod]
  have hval : ((fixedNat q / 10 : ℕ) : ℚ) + ((fixedNat q % 10 : ℕ) : ℚ) / 10 =
      round1 q := by
    have h1 : (10 : ℚ) * ((fixedNat q / 10 : ℕ) : ℚ) + ((fixedNat q % 10 : ℕ) : ℚ) =
        ((fixedNat q : ℕ) : ℚ) := by
      exact_mod_cast Nat.div_add_mod (fixedNat q) 10
    simp only [round1]
    linarith
  simp [hval]

theorem jsNumToString_natCast (n : ℕ) :
    jsNumToString (.num (n : ℚ)) = natToString n := by
  have h0 : ¬((n : ℚ) < 0) := not_lt.2 (by positivity)
  have hfl : (⌊(n : ℚ)⌋).toNat = n := by
    rw [Int.floor_natCast]
    exact Int.toNat_natCast n
  show String.mk (ratToChars (n : ℚ)) = _
  rw [ratToChars, if_neg h0, ratToCharsNN, hfl]
  simp [natToString]

theorem readCount0_none : readCount0 none = .num 0 := by decide

theorem readCount0_empty : readCount0 (some "") = .num 0 := by decide

theorem natToString_ne_empty (n : ℕ) : natToString n ≠ "" := by
  intro h
  exact natToChars_ne_nil n (congrArg String.data h)

theorem readCount0_nat (n : ℕ) :
    readCount0 (some (natToString n)) = .num (n : ℚ) := by
  have : jsTruthy (.str (natToString n)) = true := by
    simp [jsTruthy, natToString_ne_empty n]
  rw [readCount0, kvVal, jsOr, this]
  simp [jsToNumber, jsNumberOfString_natToString]

theorem readCountN_none : readCountN none = .num 0 := by decide

theorem readCountN_empty : readCountN (some "") = .num 0 := by decide

theorem readCountN_nat (n : ℕ) :
    readCountN (some (natToString n)) = .num (n : ℚ) := by
  have : jsTruthy (.str (natToString n)) = true := by
    simp [jsTruthy, natToString_ne_empty n]
  rw [readCountN, kvVal, jsOr, this]
  simp [jsToNumber, jsNumberOfString_natToString]

theorem str_append_inj (p a b : String) : p ++ a = p ++ b ↔ a = b := by
  constructor
  · intro h
    have hd := congrArg String.data h
    rw [String.data_append p a, String.data_append p b] at hd
    exact String.ext (List.append_cancel_left hd)
  · intro h; rw [h]

theorem str_append_ne_of_char (p1 p2 a b : String) (i : ℕ) (c1 c2 : Char)
    (h1 : p1.data[i]? = some c1) (h2 : p2.data[i]? = some c2) (hc : c1 ≠ c2) :
    p1 ++ a ≠ p2 ++ b := by
  intro h
  have hd := congrArg String.data h
  rw [String.data_append p1 a, String.data_append p2 b] at hd
  have hl1 : i < p1.data.length := by
    by_contra hx
    rw [List.getElem?_eq_none (by omega)] at h1
    exact Option.noConfusion h1
  have hl2 : i < p2.data.length := by
    by_contra hx
    rw [List.getElem?_eq_none (by omega)] at h2
    exact Option.noConfusion h2
  have e1 : (p1.data ++ a.data)[i]? = some c1 := by
    rw [List.getElem?_append_left hl1]; exact h1
  have e2 : (p2.data ++ b.data)[i]? = some c2 := by
    rw [List.getElem?_append_left hl2]; exact h2
  rw [hd, e2] at e1
  exact hc (Option.some.injEq _ _ ▸ e1).symm

theorem likes_ne_downloads (a b : String) :
    ("likes:" ++ a : String) ≠ "downloads:" ++ b :=
  str_append_ne_of_char _ _ a b 0 'l' 'd' rfl rfl (by decide)

theorem likes_ne_rating (a b : String) :
    ("likes:" ++ a : String) ≠ "rating:" ++ b :=
  str_append_ne_of_char _ _ a b 0 'l' 'r' rfl rfl (by decide)

theorem likes_ne_ratingCount (a b : String) :
    ("likes:" ++ a : String) ≠ "rating_count:" ++ b :=
  str_append_ne_of_char _ _ a b 0 'l' 'r' rfl rfl (by decide)

theorem downloads_ne_rating (a b : String) :
    ("downloads:" ++ a : String) ≠ "rating:" ++ b :=
  str_append_ne_of_char _ _ a b 0 'd' 'r' rfl rfl (by decide)

theorem downloads_ne_ratingCount (a b : String) :
    ("downloads:" ++ a : String) ≠ "rating_count:" ++ b :=
  str_append_ne_of_char _ _ a b 0 'd' 'r' rfl rfl (by decide)

theorem rating_ne_ratingCount (a b : String) :
    ("rating:" ++ a : String) ≠ "rating_count:" ++ b :=
  str_append_ne_of_char _ _ a b 6 ':' '_' rfl rfl (by decide)

theorem storePut_same (st : Store) (k v : String) : st.put k v k = some v := by
  simp [Store.put]

theorem storePut_other (st : Store) (k v k2 : String) (h : k2 ≠ k) :
    st.put k v k2 = st k2 := by
  simp [Store.put, h]

theorem storePut_isSome (st : Store) (k v k2 : String)
    (h : (st k2).isSome) : (st.put k v k2).isSome := by
  by_cases he : k2 = k
  · subst he; simp [Store.put]
  · rw [storePut_other st k v k2 he]; exact h

theorem rlPut_same (st : RLStore) (k v : String) (ttl : ℕ) :
    st.put k v ttl k = some (v, ttl) := by
  simp [RLStore.put]

theorem rlPut_other (st : RLStore) (k v : String) (ttl : ℕ) (k2 : String)
    (h : k2 ≠ k) : st.put k v ttl k2 = st k2 := by
  simp [RLStore.put, h]

/-- C10: a like or rate request whose body is not valid JSON is parsed to the
empty object, hence treated as having a missing item id: it fails with the
400-class invalid-request response of the respective handler (never an
uncaught parse error or a 500), and neither the counter store nor the
rate-limit store is touched. -/
theorem malformed_body_is_400 (st : KVState) (clientIp : String) :
    handleLike st emptyBody clientIp = (.err 400 "Missing id", st) ∧
    handleRate st emptyBody clientIp = (.err 400 "Invalid rating (must be 1-5)", st) := by
  constructor
  · simp [handleLike, emptyBody, bodyIdStr, jsOr, jsTruthy, jsToString]
  · simp [handleRate, emptyBody, bodyIdStr, bodyRatingNum, jsOr, jsTruthy,
      jsToString, jsToNumber, jlt, jgt]

/-- Printing an incremented natural counter. -/
theorem jsNumToString_add_one (k : ℕ) :
    jsNumToString (jadd (.num (k : ℚ)) (.num 1)) = natToString (k + 1) := by
  have hc : ((k : ℚ) + 1) = ((k + 1 : ℕ) : ℚ) := by push_cast; ring
  show jsNumToString (.num ((k : ℚ) + 1)) = _
  rw [hc, jsNumToString_natCast]

/-- Distinct client identities give distinct like marker keys. -/
theorem likeKey_ne_of_ip_ne (id cip cip2 : String) (h : cip2 ≠ cip) :
    likeKey id cip2 ≠ likeKey id cip := by
  intro he
  exact h ((str_append_inj ("like:" ++ id ++ ":") cip2 cip).1 he)

/-- C4: with a well-formed stored likes counter `k` and a non-empty id: a like
whose rate-limit marker is present fails 429 with both stores unchanged; with
the marker absent it succeeds, writes the marker (24h TTL) and stores `k + 1`,
returning the new total; a second like from the same client on the resulting
state is rejected with no change, while a like from a different client
identity (marker absent) succeeds and returns `k + 2`. -/
theorem like_rate_limit (st : KVState) (body : ReqBody) (clientIp clientIp2 : String)
    (k : ℕ) (hid : bodyIdStr body ≠ "")
    (hwf : readCount0 (st.counts ("likes:" ++ bodyIdStr body)) = .num (k : ℚ)) :
    (∀ v, st.rl (likeKey (bodyIdStr body) clientIp) = some v →
      handleLike st body clientIp = (.err 429 "Rate limited", st)) ∧
    (st.rl (likeKey (bodyIdStr body) clientIp) = none →
      handleLike st body clientIp =
        (.ok (bodyIdStr body) (.num ((k : ℚ) + 1)),
         ⟨st.counts.put ("likes:" ++ bodyIdStr body) (natToString (k + 1)),
          st.rl.put (likeKey (bodyIdStr body) clientIp) "1" 86400⟩) ∧
      handleLike (handleLike st body clientIp).2 body clientIp =
        (.err 429 "Rate limited", (handleLike st body clientIp).2) ∧
      (clientIp2 ≠ clientIp → st.rl (likeKey (bodyIdStr body) clientIp2) = none →
        (handleLike (handleLike st body clientIp).2 body clientIp2).1 =
          .ok (bodyIdStr body) (.num ((k : ℚ) + 2)))) := by
  constructor
  · intro v hv
    simp only [handleLike]
    rw [if_neg hid]
    simp only [hv]
  · intro hmk
    have hfst : handleLike st body clientIp =
        (.ok (bodyIdStr body) (.num ((k : ℚ) + 1)),
         ⟨st.counts.put ("likes:" ++ bodyIdStr body) (natToString (k + 1)),
          st.rl.put (likeKey (bodyIdStr body) clientIp) "1" 86400⟩) := by
      simp only [handleLike]
      rw [if_neg hid]
      simp only [hmk, hwf, jsNumToString_add_one]
      rfl
    refine ⟨hfst, ?_, ?_⟩
    · rw [hfst]
      simp only [handleLike]
      rw [if_neg hid]
      simp only [rlPut_same]
    · intro hne hmk2
      rw [hfst]
      simp only [handleLike]
      rw [if_neg hid]
      rw [rlPut_other _ _ _ _ _ (likeKey_ne_of_ip_ne (bodyIdStr body) clientIp clientIp2 hne)]
      simp only [hmk2, storePut_same, readCount0_nat]
      simp [jadd]
      ring

/-- Witness for C4: fresh state, item 1, clients 1.1.1.1 and 2.2.2.2. -/
theorem like_rate_limit_witness :
    bodyIdStr wBodyOk ≠ "" ∧
    readCount0 (wSt0.counts ("likes:" ++ bodyIdStr wBodyOk)) = .num ((0 : ℕ) : ℚ) ∧
    ((∀ v, wSt0.rl (likeKey (bodyIdStr wBodyOk) "1.1.1.1") = some v →
      handleLike wSt0 wBodyOk "1.1.1.1" = (.err 429 "Rate limited", wSt0)) ∧
    (wSt0.rl (likeKey (bodyIdStr wBodyOk) "1.1.1.1") = none →
      handleLike wSt0 wBodyOk "1.1.1.1" =
        (.ok (bodyIdStr wBodyOk) (.num (((0 : ℕ) : ℚ) + 1)),
         ⟨wSt0.counts.put ("likes:" ++ bodyIdStr wBodyOk) (natToString (0 + 1)),
          wSt0.rl.put (likeKey (bodyIdStr wBodyOk) "1.1.1.1") "1" 86400⟩) ∧
      handleLike (handleLike wSt0 wBodyOk "1.1.1.1").2 wBodyOk "1.1.1.1" =
        (.err 429 "Rate limited", (handleLike wSt0 wBodyOk "1.1.1.1").2) ∧
      ("2.2.2.2" ≠ "1.1.1.1" →
        wSt0.rl (likeKey (bodyIdStr wBodyOk) "2.2.2.2") = none →
        (handleLike (handleLike wSt0 wBodyOk "1.1.1.1").2 wBodyOk "2.2.2.2").1 =
          .ok (bodyIdStr wBodyOk) (.num (((0 : ℕ) : ℚ) + 2))))) :=
  ⟨by decide, by decide,
   like_rate_limit wSt0 wBodyOk "1.1.1.1" "2.2.2.2" 0 (by decide) (by decide)⟩

/-- C7: a download request whose asset URL does not parse fails 400
("Invalid asset url"); one whose parsed host is outside the fixed allow-list
fails 400 ("Disallowed asset host", the Forbidden case of the error
taxonomy); in both cases no upstream fetch is performed (the flag is false)
and the counter store is unchanged. -/
theorem download_host_validation (st : KVState) (id : String)
    (parsedHost : Option String) (upstreamOk : Bool) (upstreamStatus : ℕ) :
    (parsedHost = none →
      handleDownload st id parsedHost upstreamOk upstreamStatus =
        (.err 400 "Invalid asset url", st, false)) ∧
    (∀ h, parsedHost = some h → h ∉ ALLOWED_ASSET_HOSTS →
      handleDownload st id parsedHost upstreamOk upstreamStatus =
        (.err 400 "Disallowed asset host", st, false)) := by
  constructor
  · intro hp
    simp [handleDownload, hp]
  · intro h hp hmem
    simp [handleDownload, hp, hmem]

/-- Witness for C7: the host `evil.example.com` is rejected without a fetch. -/
theorem download_host_validation_witness :
    (some "evil.example.com" = (none : Option String) →
      handleDownload wSt0 "1" (some "evil.example.com") true 200 =
        (.err 400 "Invalid asset url", wSt0, false)) ∧
    (some "evil.example.com" = some "evil.example.com" ∧
      "evil.example.com" ∉ ALLOWED_ASSET_HOSTS ∧
      handleDownload wSt0 "1" (some "evil.example.com") true 200 =
        (.err 400 "Disallowed asset host", wSt0, false)) :=
  ⟨fun h => Option.noConfusion h,
   rfl, by decide,
   (download_host_validation wSt0 "1" (some "evil.example.com") true 200).2
     "evil.example.com" rfl (by decide)⟩

/-- C5: a multipart submission in which any of the five required fields is
empty after trimming is rejected with 400 before any external call: the trace
of external calls is empty — no captcha verification, no release lookup or
creation, no asset upload, no tracking issue. -/
theorem submit_missing_fields (secret maxFileBytes : Option String)
    (form : SubmitForm) (orc : SubmitOracle)
    (hmiss : norm form.title = "" ∨ norm form.category = "" ∨ norm form.game = "" ∨
      norm form.description = "" ∨ norm form.author = "") :
    handleSubmit secret maxFileBytes true form orc =
      (.err 400 "Missing required fields", []) := by
  have hm2 : (buildMeta form).title = "" ∨ (buildMeta form).category = "" ∨
      (buildMeta form).game = "" ∨ (buildMeta form).description = "" ∨
      (buildMeta form).author = "" := hmiss
  simp only [handleSubmit]
  rw [if_neg (by simp), if_pos hm2]

/-- Oversized-file abort of the upload loop: the loop returns the 413 error of
the first oversized file and every call it made uploaded a file of size within
the limit. -/
theorem uploadFiles_oversized (m : ℚ) (orc : SubmitOracle)
    (hup : ∀ i, (orc.uploadUrl i).isSome) :
    ∀ (fs : List FileRec) (idx : ℕ), (∃ f ∈ fs, m < (f.size : ℚ)) →
      ∃ msg tr, uploadFiles (.num m) orc idx fs = .inr (.err 413 msg, tr) ∧
        ∀ e ∈ tr, ∃ j nm, e = ExtCall.uploadAsset j nm ∧ idx ≤ j ∧
          ∃ hk : j - idx < fs.length, ((fs.get ⟨j - idx, hk⟩).size : ℚ) ≤ m := by
  intro fs
  induction fs with
  | nil => intro idx hbig; simp at hbig
  | cons f rest ih =>
      intro idx hbig
      by_cases hf : m < (f.size : ℚ)
      · refine ⟨"File too large: " ++ f.name ++ " (" ++ natToString f.size ++ " > " ++
          jsNumToString (.num m) ++ ")", [], ?_, by simp⟩
        simp [uploadFiles, jgt, jlt, hf]
      · have hfle : ((f.size : ℚ)) ≤ m := le_of_not_lt hf
        have hrest : ∃ g ∈ rest, m < (g.size : ℚ) := by
          rcases hbig with ⟨g, hg, hgs⟩
          rcases List.mem_cons.1 hg with rfl | hg2
          · exact absurd hgs hf
          · exact ⟨g, hg2, hgs⟩
        rcases ih (idx + 1) hrest with ⟨msg, tr, htr, hmem⟩
        rcases hu : orc.uploadUrl idx with _ | url
        · exact absurd (hu ▸ hup idx) (by simp)
        · refine ⟨msg, .uploadAsset idx (sanitize f.name) :: tr, ?_, ?_⟩
          · simp [uploadFiles, jgt, jlt, hf, hu, htr]
          · intro e he
            rcases List.mem_cons.1 he with rfl | he2
            · exact ⟨idx, sanitize f.name, rfl, le_refl idx,
                by simp, by simp [hfle]⟩
            · rcases hmem e he2 with ⟨j, nm, rfl, hj, hk, hsz⟩
              refine ⟨j, nm, rfl, by omega, by simp; omega, ?_⟩
              have hidx : j - idx = (j - (idx + 1)) + 1 := by omega
              simp only [hidx, List.get_cons_succ]
              exact hsz

/-- The captcha step issues at most the verification call. -/
theorem verifyCaptchaM_trace (s : Option String) (t : String) (ok : Bool) :
    ∀ e ∈ (verifyCaptchaM s t ok).2, e = ExtCall.captchaVerify := by
  cases s with
  | none => simp [verifyCaptchaM]
  | some sec =>
      by_cases ht : t = "" <;> simp [verifyCaptchaM, ht]

/-- C6: a submission that reaches the upload stage (valid fields, captcha ok,
release resolved, earlier uploads succeeding) and contains an oversized file
fails with 413 PayloadTooLarge; no tracking issue is created, and no oversized
file is ever uploaded — each file's size check happens before that file's own
upload begins. -/
theorem submit_oversized (secret maxFileBytes : Option String) (form : SubmitForm)
    (orc : SubmitOracle) (m : ℚ)
    (hreq : norm form.title ≠ "" ∧ norm form.category ≠ "" ∧ norm form.game ≠ "" ∧
      norm form.description ≠ "" ∧ norm form.author ≠ "")
    (hcap : (verifyCaptchaM secret
      (jsToString (jsOr (propVal ((form.captchaToken).map .str)) (.str "")))
      orc.captchaOk).1 = true)
    (hmax : jsToNumber (jsCoalesce (propVal ((maxFileBytes).map .str))
      (.str "104857600")) = .num m)
    (hrel : orc.releaseLookup.isSome ∨ orc.releaseCreate.isSome)
    (hup : ∀ i, (orc.uploadUrl i).isSome)
    (hbig : ∃ f ∈ form.files, m < (f.size : ℚ)) :
    ∃ msg tr, handleSubmit secret maxFileBytes true form orc = (.err 413 msg, tr) ∧
      ExtCall.issueCreate ∉ tr ∧
      ∀ i (hi : i < form.files.length), m < ((form.files.get ⟨i, hi⟩).size : ℚ) →
        ∀ nm, ExtCall.uploadAsset i nm ∉ tr := by
  have hreqc : ¬((buildMeta form).title = "" ∨ (buildMeta form).category = "" ∨
      (buildMeta form).game = "" ∨ (buildMeta form).description = "" ∨
      (buildMeta form).author = "") := by
    simp only [not_or]
    exact ⟨hreq.1, hreq.2.1, hreq.2.2.1, hreq.2.2.2.1, hreq.2.2.2.2⟩
  rcases hv : verifyCaptchaM secret
      (jsToString (jsOr (propVal ((form.captchaToken).map .str)) (.str "")))
      orc.captchaOk with ⟨b, tr0⟩
  rw [hv] at hcap
  simp only at hcap
  subst hcap
  have htr0 : ∀ e ∈ tr0, e = ExtCall.captchaVerify := by
    have := verifyCaptchaM_trace secret
      (jsToString (jsOr (propVal ((form.captchaToken).map .str)) (.str "")))
      orc.captchaOk
    rw [hv] at this
    exact this
  rcases uploadFiles_oversized m orc hup form.files 0 hbig with ⟨msg, tru, hupl, hmem⟩
  have hafter : ∃ trRel, submitAfterCaptcha (.num m) form.files orc =
      (.err 413 msg, trRel ++ tru) ∧
      (trRel = [ExtCall.releaseLookup] ∨
        trRel = [ExtCall.releaseLookup, ExtCall.releaseCreate]) := by
    rcases hrl : orc.releaseLookup with _ | rid
    · rcases hrc : orc.releaseCreate with _ | rid2
      · rw [hrl, hrc] at hrel; simp at hrel
      · exact ⟨[ExtCall.releaseLookup, ExtCall.releaseCreate],
          by simp [submitAfterCaptcha, hrl, hrc, submitUpload, hupl], Or.inr rfl⟩
    · exact ⟨[ExtCall.releaseLookup],
        by simp [submitAfterCaptcha, hrl, submitUpload, hupl], Or.inl rfl⟩
  rcases hafter with ⟨trRel, hac, htrRel⟩
  refine ⟨msg, tr0 ++ (trRel ++ tru), ?_, ?_, ?_⟩
  · simp only [handleSubmit]
    rw [if_neg (by simp), if_neg hreqc, hv]
    simp only [hmax, hac]
  · intro hmem2
    rcases List.mem_append.1 hmem2 with h | h
    · exact ExtCall.noConfusion (htr0 _ h)
    · rcases List.mem_append.1 h with h | h
      · rcases htrRel with rfl | rfl <;> simp at h
      · rcases hmem _ h with ⟨j, nm, he, _⟩
        exact ExtCall.noConfusion he
  · intro i hi hisz nm hmem2
    rcases List.mem_append.1 hmem2 with h | h
    · exact ExtCall.noConfusion (htr0 _ h)
    · rcases List.mem_append.1 h with h | h
      · rcases htrRel with rfl | rfl <;> simp at h
      · rcases hmem _ h with ⟨j, nm2, he, _, hk, hsz⟩
        have hj : j = i ∧ nm2 = nm := by
          have := he.symm
          injection this with h1 h2
          exact ⟨h1, h2⟩
        rcases hj with ⟨rfl, rfl⟩
        simp only [Nat.sub_zero] at hk hsz
        have : form.files.get ⟨j, hk⟩ = form.files.get ⟨j, hi⟩ := rfl
        rw [this] at hsz
        linarith

/-- Witness for C5: the all-empty form is rejected with an empty call trace. -/
theorem submit_missing_fields_witness :
    (norm wFormEmpty.title = "" ∨ norm wFormEmpty.category = "" ∨
      norm wFormEmpty.game = "" ∨ norm wFormEmpty.description = "" ∨
      norm wFormEmpty.author = "") ∧
    handleSubmit none none true wFormEmpty wOrc =
      (.err 400 "Missing required fields", []) :=
  ⟨Or.inl (by decide),
   submit_missing_fields none none wFormEmpty wOrc (Or.inl (by decide))⟩

/-- Witness for C6: a 1000-byte attachment against a 100-byte limit. -/
theorem submit_oversized_witness :
    (norm wFormBig.title ≠ "" ∧ norm wFormBig.category ≠ "" ∧
      norm wFormBig.game ≠ "" ∧ norm wFormBig.description ≠ "" ∧
      norm wFormBig.author ≠ "") ∧
    (verifyCaptchaM none
      (jsToString (jsOr (propVal ((wFormBig.captchaToken).map .str)) (.str "")))
      wOrc.captchaOk).1 = true ∧
    jsToNumber (jsCoalesce (propVal (((some "100" : Option String)).map .str))
      (.str "104857600")) = .num 100 ∧
    (wOrc.releaseLookup.isSome ∨ wOrc.releaseCreate.isSome) ∧
    (∀ i, (wOrc.uploadUrl i).isSome) ∧
    (∃ f ∈ wFormBig.files, (100 : ℚ) < (f.size : ℚ)) ∧
    (∃ msg tr, handleSubmit none (some "100") true wFormBig wOrc =
        (.err 413 msg, tr) ∧
      ExtCall.issueCreate ∉ tr ∧
      ∀ i (hi : i < wFormBig.files.length),
        (100 : ℚ) < ((wFormBig.files.get ⟨i, hi⟩).size : ℚ) →
        ∀ nm, ExtCall.uploadAsset i nm ∉ tr) := by
  have hmax : jsToNumber (jsCoalesce (propVal (((some "100" : Option String)).map .str))
      (.str "104857600")) = .num 100 := by
    have h1 : natToString 100 = "100" := by decide
    have h2 := jsNumberOfString_natToString 100
    rw [h1] at h2
    show jsNumberOfString "100" = .num 100
    rw [h2]
    norm_num
  have hbig : ∃ f ∈ wFormBig.files, (100 : ℚ) < (f.size : ℚ) := by
    refine ⟨⟨"big.zip", 1000⟩, by decide, by norm_num⟩
  exact ⟨⟨by decide, by decide, by decide, by decide, by decide⟩, rfl, hmax,
    Or.inl (by decide), fun i => rfl, hbig,
    submit_oversized none (some "100") wFormBig wOrc 100
      ⟨by decide, by decide, by decide, by decide, by decide⟩ rfl hmax
      (Or.inl (by decide)) (fun i => rfl) hbig⟩

/-- Merge chain when the live counter is present and non-empty. -/
theorem mergeRead_store (s : String) (hs : s ≠ "") (o : Option JSNum) :
    jsToNumber (jsOr (jsOr (kvVal (some s)) (numProp o)) (.numv (.num 0))) =
      jsNumberOfString s := by
  simp [kvVal, jsOr, jsTruthy, hs, jsToNumber]

/-- Merge chain when the live counter is absent or empty: the JSON-clean
snapshot field, else 0. -/
theorem mergeRead_fallback (v : Option String) (hv : v = none ∨ v = some "")
    (o : Option JSNum) (ho : ∀ n ∈ o, ∃ q : ℚ, n = JSNum.num q) :
    jsToNumber (jsOr (jsOr (kvVal v) (numProp o)) (.numv (.num 0))) =
      o.getD (.num 0) := by
  have hfalsy : jsTruthy (kvVal v) = false := by
    rcases hv with rfl | rfl <;> simp [kvVal, jsTruthy]
  rw [jsOr, jsOr]
  rw [hfalsy]
  simp only [Bool.false_eq_true, if_false]
  cases o with
  | none => simp [numProp, jsTruthy, jsToNumber]
  | some n =>
      rcases ho n rfl with ⟨q, rfl⟩
      by_cases hq : q = 0
      · subst hq; simp [numProp, jsTruthy, jsToNumber]
      · simp [numProp, jsTruthy, hq, jsToNumber]

/-- The enriched object satisfies the merge contract fieldwise. -/
theorem enrichItem_spec (counts : Store) (key : String) (it : Item)
    (hcl : cleanItem it) :
    mergeFieldSpec counts key it (enrichItem counts key it) := by
  obtain ⟨hl, hd, hr, ht⟩ := hcl
  refine ⟨rfl, rfl, rfl, ?_, ?_, ?_, ?_, ?_, ?_, ?_, ?_⟩
  · intro s hs hne
    simp only [enrichItem, hs]
    rw [mergeRead_store s hne]
  · intro hv
    simp only [enrichItem]
    rcases hv with hv | hv <;> rw [hv, mergeRead_fallback _ (by simp [hv]) _ hl]
  · intro s hs hne
    simp only [enrichItem, hs]
    rw [mergeRead_store s hne]
  · intro hv
    simp only [enrichItem]
    rcases hv with hv | hv <;> rw [hv, mergeRead_fallback _ (by simp [hv]) _ hd]
  · intro s hs hne
    simp only [enrichItem, hs]
    simp [kvVal, jsTruthy, hne, jsToNumber]
  · intro hv
    simp only [enrichItem]
    have hfalsy : jsTruthy (kvVal (counts ("rating:" ++ key))) = false := by
      rcases hv with hv | hv <;> rw [hv] <;> simp [kvVal, jsTruthy]
    rw [hfalsy]
    simp only [Bool.false_eq_true, if_false]
    cases hro : it.rating with
    | none => simp [numProp, jsOr, jsTruthy, jsToNumber]
    | some n =>
        rcases hr n (by rw [hro]; rfl) with ⟨q, rfl⟩
        by_cases hq : q = 0
        · subst hq; simp [numProp, jsOr, jsTruthy, jsToNumber]
        · simp [numProp, jsOr, jsTruthy, hq, jsToNumber]
  · intro s hs hne
    simp only [enrichItem, hs]
    rw [mergeRead_store s hne]
  · intro hv
    simp only [enrichItem]
    rcases hv with hv | hv <;> rw [hv, mergeRead_fallback _ (by simp [hv]) _ ht]

/-- C3: in the merged collection each item with a non-empty derived key is
replaced by the enriched object, which for each of the four counters carries
the live store value cast to a number when the key is present and non-empty,
else the snapshot field when present, else 0; the item's id, legacy number
and all remaining properties are carried over unchanged, and the handler
never writes to the store (it is read-only by construction). -/
theorem content_merge (counts : Store) (items : List Item) (it : Item)
    (hit : it ∈ items) (hcl : cleanItem it) (hkey : itemKey it ≠ "") :
    ∃ L, handleContent true (some items) counts = .ok L ∧
      enrichItem counts (itemKey it) it ∈ L ∧
      mergeFieldSpec counts (itemKey it) it (enrichItem counts (itemKey it) it) := by
  refine ⟨items.map (mergeOne counts), by simp [handleContent], ?_,
    enrichItem_spec counts (itemKey it) it hcl⟩
  refine List.mem_map.2 ⟨it, hit, ?_⟩
  simp [mergeOne, hkey]

/-- The first match of a linear scan. -/
theorem find?_first {p : Item → Bool} :
    ∀ (pre : List Item) (it : Item) (post : List Item),
      (∀ x ∈ pre, p x = false) → p it = true →
      List.find? p (pre ++ it :: post) = some it := by
  intro pre
  induction pre with
  | nil => intro it post _ hp; simp [List.find?, hp]
  | cons a pre ih =>
      intro it post hpre hp
      have ha : p a = false := hpre a (by simp)
      simp only [List.cons_append, List.find?_cons, ha]
      exact ih it post (fun x hx => hpre x (by simp [hx])) hp

/-- C8: the single-item view finds the first item whose `id` or legacy
`number` field is string-equal to the requested id (so an item present only
under the legacy field is found), fails 404 when nothing matches, and
enriches the match with the same live-counter merge as the collection view
(keyed by the requested id). -/
theorem contentById_lookup (counts : Store) (items : List Item) (reqId : String) :
    ((∀ it ∈ items, matchesId reqId it = false) →
      handleContentById true (some items) reqId counts = .err 404 "Item not found") ∧
    (∀ pre it post, items = pre ++ it :: post →
      (∀ p ∈ pre, matchesId reqId p = false) → matchesId reqId it = true →
      handleContentById true (some items) reqId counts =
        .ok (enrichItem counts reqId it) ∧
      (cleanItem it → mergeFieldSpec counts reqId it (enrichItem counts reqId it))) ∧
    (∀ it : Item, matchesId reqId it = true ↔
      (jsToString (propVal it.id) = reqId ∨ jsToString (propVal it.number) = reqId)) := by
  refine ⟨?_, ?_, ?_⟩
  · intro hall
    have hnone : items.find? (matchesId reqId) = none := by
      rw [List.find?_eq_none]
      intro x hx
      simp [hall x hx]
    simp [handleContentById, hnone]
  · intro pre it post heq hpre hit
    constructor
    · have hfind : items.find? (matchesId reqId) = some it := by
        rw [heq]
        exact find?_first pre it post hpre hit
      simp [handleContentById, hfind]
    · intro hcl
      exact enrichItem_spec counts reqId it hcl
  · intro it
    simp [matchesId]

/-- Witness for C3: item 7 with snapshot likes 3 and live likes `"9"`. -/
theorem content_merge_witness :
    wItem1 ∈ [wItem1] ∧ cleanItem wItem1 ∧ itemKey wItem1 ≠ "" ∧
    (∃ L, handleContent true (some [wItem1]) wCounts1 = .ok L ∧
      enrichItem wCounts1 (itemKey wItem1) wItem1 ∈ L ∧
      mergeFieldSpec wCounts1 (itemKey wItem1) wItem1
        (enrichItem wCounts1 (itemKey wItem1) wItem1)) := by
  have hcl : cleanItem wItem1 := by
    refine ⟨?_, ?_, ?_, ?_⟩ <;> intro n hn <;> simp [wItem1] at hn
    exact ⟨3, hn.symm⟩
  exact ⟨List.mem_singleton.2 rfl, hcl, by decide,
    content_merge wCounts1 [wItem1] wItem1 (List.mem_singleton.2 rfl) hcl (by decide)⟩

/-- Witness for C8: an item carried only by the legacy `number` field 42 is
found by `GET /content/42`. -/
theorem contentById_lookup_witness :
    ([wItemLegacy] = ([] : List Item) ++ wItemLegacy :: []) ∧
    (∀ p ∈ ([] : List Item), matchesId "42" p = false) ∧
    matchesId "42" wItemLegacy = true ∧
    handleContentById true (some [wItemLegacy]) "42" wCounts1 =
      .ok (enrichItem wCounts1 "42" wItemLegacy) := by
  have h42 : matchesId "42" wItemLegacy = true := by
    have h := jsNumToString_natCast 42
    norm_num at h
    have hs : natToString 42 = "42" := by decide
    rw [hs] at h
    simp [matchesId, wItemLegacy, propVal, jsToString, h]
  exact ⟨rfl, by simp, h42,
    ((contentById_lookup wCounts1 [wItemLegacy] "42").2.1 [] wItemLegacy [] rfl
      (by simp) h42).1⟩

/-- A well-formed stored counter reads as some natural number under both
fallbacks. -/
theorem natValOk_read (o : Option String) (h : natValOk o) :
    ∃ n : ℕ, readCount0 o = .num (n : ℚ) ∧ readCountN o = .num (n : ℚ) := by
  rcases h with rfl | rfl | ⟨n, rfl⟩
  · exact ⟨0, by decide, by decide⟩
  · exact ⟨0, by decide, by decide⟩
  · exact ⟨n, readCount0_nat n, readCountN_nat n⟩

/-- A well-formed counter is trivially not below itself. -/
theorem counterGe_refl (o : Option String) (h : natValOk o) : counterGe o o := by
  rcases natValOk_read o h with ⟨n, h0, _⟩
  exact ⟨n, n, h0, h0, le_refl n⟩

/-- Writing the incremented numeral does not decrease the counter. -/
theorem counterGe_write (o : Option String) (n : ℕ)
    (hr : readCount0 o = .num (n : ℚ)) :
    counterGe o (some (natToString (n + 1))) :=
  ⟨n, n + 1, hr, readCount0_nat (n + 1), by omega⟩

/-- The like handler either leaves the counts store unchanged or writes the
incremented likes counter of its item. -/
theorem handleLike_counts (st : KVState) (body : ReqBody) (clientIp : String) :
    (handleLike st body clientIp).2.counts = st.counts ∨
    (handleLike st body clientIp).2.counts =
      st.counts.put ("likes:" ++ bodyIdStr body)
        (jsNumToString (jadd (readCount0 (st.counts ("likes:" ++ bodyIdStr body)))
          (.num 1))) := by
  by_cases hid : bodyIdStr body = ""
  · left; simp [handleLike, hid]
  · rcases hmk : st.rl (likeKey (bodyIdStr body) clientIp) with _ | v
    · right; simp [handleLike, hid, hmk]
    · left; simp [handleLike, hid, hmk]

/-- The rate handler either leaves the counts store unchanged or writes the
new average and the incremented rating count of its item. -/
theorem handleRate_counts (st : KVState) (body : ReqBody) (clientIp : String) :
    (handleRate st body clientIp).2.counts = st.counts ∨
    ∃ v1, (handleRate st body clientIp).2.counts =
      (st.counts.put ("rating:" ++ bodyIdStr body) v1).put
        ("rating_count:" ++ bodyIdStr body)
        (jsNumToString (jadd (readCountN (st.counts ("rating_count:" ++ bodyIdStr body)))
          (.num 1))) := by
  by_cases hc : bodyIdStr body = "" ∨ jlt (bodyRatingNum body) (.num 1) = true ∨
      jgt (bodyRatingNum body) (.num 5) = true
  · left
    simp only [handleRate]
    rw [if_pos hc]
  · rcases hmk : st.rl (rateKey (bodyIdStr body) clientIp) with _ | v
    · right
      refine ⟨toFixed1 (if jstrictEq (readCountN (st.counts
          ("rating_count:" ++ bodyIdStr body))) (.num 0) = true then bodyRatingNum body
        else jdiv (jadd (jmul (readCountN (st.counts ("rating:" ++ bodyIdStr body)))
            (readCountN (st.counts ("rating_count:" ++ bodyIdStr body))))
            (bodyRatingNum body))
          (jadd (readCountN (st.counts ("rating_count:" ++ bodyIdStr body))) (.num 1))), ?_⟩
      simp only [handleRate]
      rw [if_neg hc]
      simp only [hmk]
    · left
      simp only [handleRate]
      rw [if_neg hc]
      simp only [hmk]

/-- The download proxy either leaves the counts store unchanged or writes the
incremented downloads counter of its item. -/
theorem handleDownload_counts (st : KVState) (did : String) (host : Option String)
    (uok : Bool) (ust : ℕ) :
    (handleDownload st did host uok ust).2.1.counts = st.counts ∨
    (handleDownload st did host uok ust).2.1.counts =
      st.counts.put ("downloads:" ++ did)
        (jsNumToString (jadd (readCount0 (st.counts ("downloads:" ++ did)))
          (.num 1))) := by
  rcases host with _ | h
  · left; rfl
  · by_cases hmem : h ∈ ALLOWED_ASSET_HOSTS
    · by_cases huok : uok
      · by_cases hdid : did = ""
        · left; simp [handleDownload, hmem, huok, hdid]
        · right; simp [handleDownload, hmem, huok, hdid]
      · left; simp [handleDownload, hmem, huok]
    · left; simp [handleDownload, hmem]

/-- The track handler either leaves the counts store unchanged or writes the
incremented downloads counter of its item. -/
theorem handleDownloadTrack_counts (st : KVState) (tb : TrackBody) :
    (handleDownloadTrack st tb).2.counts = st.counts ∨
    (handleDownloadTrack st tb).2.counts =
      st.counts.put ("downloads:" ++ jsToString (jsOr tb.itemId (.str "")))
        (jsNumToString (jadd (readCount0 (st.counts
          ("downloads:" ++ jsToString (jsOr tb.itemId (.str ""))))) (.num 1))) := by
  by_cases hid : jsToString (jsOr tb.itemId (.str "")) = ""
  · left; simp [handleDownloadTrack, hid]
  · right; simp [handleDownloadTrack, hid]

/-- An unchanged well-formed store does not decrease any counter. -/
theorem familiesGe_refl (c : Store) (hwf : wfCounts c) : familiesGe c c := by
  intro id2
  exact ⟨counterGe_refl _ (hwf id2).1, counterGe_refl _ (hwf id2).2.1,
    counterGe_refl _ (hwf id2).2.2⟩

/-- An unchanged store deletes nothing. -/
theorem storeKept_refl (c : Store) : storeKept c c := fun _ h => h

/-- A put deletes nothing. -/
theorem storeKept_put (c : Store) (k v : String) : storeKept c (c.put k v) :=
  fun k2 h => storePut_isSome c k v k2 h

/-- Two puts delete nothing. -/
theorem storeKept_put2 (c : Store) (k1 v1 k2 v2 : String) :
    storeKept c ((c.put k1 v1).put k2 v2) :=
  fun k3 h => storePut_isSome _ k2 v2 k3 (storePut_isSome c k1 v1 k3 h)

/-- Writing the incremented likes counter does not decrease any counter of
the three monotone families. -/
theorem familiesGe_put_likes (c : Store) (hwf : wfCounts c) (id : String) :
    familiesGe c (c.put ("likes:" ++ id)
      (jsNumToString (jadd (readCount0 (c ("likes:" ++ id))) (.num 1)))) := by
  obtain ⟨n, hn0, hnN⟩ := natValOk_read _ (hwf id).1
  have hw : jsNumToString (jadd (readCount0 (c ("likes:" ++ id))) (.num 1)) =
      natToString (n + 1) := by
    rw [hn0]; exact jsNumToString_add_one n
  intro id2
  refine ⟨?_, ?_, ?_⟩
  · by_cases he : ("likes:" ++ id2 : String) = "likes:" ++ id
    · rw [he, storePut_same, hw]
      exact counterGe_write _ n hn0
    · rw [storePut_other _ _ _ _ he]
      exact counterGe_refl _ (hwf id2).1
  · rw [storePut_other _ _ _ _ (likes_ne_downloads id id2).symm]
    exact counterGe_refl _ (hwf id2).2.1
  · rw [storePut_other _ _ _ _ (likes_ne_ratingCount id id2).symm]
    exact counterGe_refl _ (hwf id2).2.2

/-- Writing the incremented downloads counter does not decrease any counter
of the three monotone families. -/
theorem familiesGe_put_downloads (c : Store) (hwf : wfCounts c) (id : String) :
    familiesGe c (c.put ("downloads:" ++ id)
      (jsNumToString (jadd (readCount0 (c ("downloads:" ++ id))) (.num 1)))) := by
  obtain ⟨n, hn0, hnN⟩ := natValOk_read _ (hwf id).2.1
  have hw : jsNumToString (jadd (readCount0 (c ("downloads:" ++ id))) (.num 1)) =
      natToString (n + 1) := by
    rw [hn0]; exact jsNumToString_add_one n
  intro id2
  refine ⟨?_, ?_, ?_⟩
  · rw [storePut_other _ _ _ _ (likes_ne_downloads id2 id)]
    exact counterGe_refl _ (hwf id2).1
  · by_cases he : ("downloads:" ++ id2 : String) = "downloads:" ++ id
    · rw [he, storePut_same, hw]
      exact counterGe_write _ n hn0
    · rw [storePut_other _ _ _ _ he]
      exact counterGe_refl _ (hwf id2).2.1
  · rw [storePut_other _ _ _ _ (downloads_ne_ratingCount id id2).symm]
    exact counterGe_refl _ (hwf id2).2.2

/-- The rate handler's write pair (average string plus incremented count)
does not decrease any counter of the three monotone families. -/
theorem familiesGe_rate_put (c : Store) (hwf : wfCounts c) (id v1 : String) :
    familiesGe c ((c.put ("rating:" ++ id) v1).put ("rating_count:" ++ id)
      (jsNumToString (jadd (readCountN (c ("rating_count:" ++ id))) (.num 1)))) := by
  obtain ⟨n, hn0, hnN⟩ := natValOk_read _ (hwf id).2.2
  have hw : jsNumToString (jadd (readCountN (c ("rating_count:" ++ id))) (.num 1)) =
      natToString (n + 1) := by
    rw [hnN]; exact jsNumToString_add_one n
  intro id2
  refine ⟨?_, ?_, ?_⟩
  · rw [storePut_other _ _ _ _ (likes_ne_ratingCount id2 id),
      storePut_other _ _ _ _ (likes_ne_rating id2 id)]
    exact counterGe_refl _ (hwf id2).1
  · rw [storePut_other _ _ _ _ (downloads_ne_ratingCount id2 id),
      storePut_other _ _ _ _ (downloads_ne_rating id2 id)]
    exact counterGe_refl _ (hwf id2).2.1
  · by_cases he : ("rating_count:" ++ id2 : String) = "rating_count:" ++ id
    · rw [he, storePut_same, hw]
      exact counterGe_write _ n hn0
    · rw [storePut_other _ _ _ _ he,
        storePut_other _ _ _ _ (rating_ne_ratingCount id id2).symm]
      exact counterGe_refl _ (hwf id2).2.2

/-- C9: on a well-formed state, every counter-store writer (like, rate,
download, trackDownload) deletes no key and leaves every likes counter,
downloads counter and rating count at least its previous value (an absent key
reading as zero, keys being created on first write); only the rating average
key, excluded from the three families, may decrease. -/
theorem counters_monotone (st : KVState) (body : ReqBody) (tb : TrackBody)
    (clientIp did : String) (host : Option String) (uok : Bool) (ust : ℕ)
    (hwf : wfCounts st.counts) :
    (storeKept st.counts (handleLike st body clientIp).2.counts ∧
      familiesGe st.counts (handleLike st body clientIp).2.counts) ∧
    (storeKept st.counts (handleRate st body clientIp).2.counts ∧
      familiesGe st.counts (handleRate st body clientIp).2.counts) ∧
    (storeKept st.counts (handleDownload st did host uok ust).2.1.counts ∧
      familiesGe st.counts (handleDownload st did host uok ust).2.1.counts) ∧
    (storeKept st.counts (handleDownloadTrack st tb).2.counts ∧
      familiesGe st.counts (handleDownloadTrack st tb).2.counts) := by
  refine ⟨?_, ?_, ?_, ?_⟩
  · rcases handleLike_counts st body clientIp with hc | hc <;> rw [hc]
    · exact ⟨storeKept_refl _, familiesGe_refl _ hwf⟩
    · exact ⟨storeKept_put _ _ _, familiesGe_put_likes _ hwf _⟩
  · rcases handleRate_counts st body clientIp with hc | ⟨v1, hc⟩ <;> rw [hc]
    · exact ⟨storeKept_refl _, familiesGe_refl _ hwf⟩
    · exact ⟨storeKept_put2 _ _ _ _ _, familiesGe_rate_put _ hwf _ _⟩
  · rcases handleDownload_counts st did host uok ust with hc | hc <;> rw [hc]
    · exact ⟨storeKept_refl _, familiesGe_refl _ hwf⟩
    · exact ⟨storeKept_put _ _ _, familiesGe_put_downloads _ hwf _⟩
  · rcases handleDownloadTrack_counts st tb with hc | hc <;> rw [hc]
    · exact ⟨storeKept_refl _, familiesGe_refl _ hwf⟩
    · exact ⟨storeKept_put _ _ _, familiesGe_put_downloads _ hwf _⟩

/-- Witness for C9: all four operations on the empty (well-formed) state. -/
theorem counters_monotone_witness :
    wfCounts wSt0.counts ∧
    ((storeKept wSt0.counts (handleLike wSt0 wBodyOk "1.1.1.1").2.counts ∧
      familiesGe wSt0.counts (handleLike wSt0 wBodyOk "1.1.1.1").2.counts) ∧
    (storeKept wSt0.counts (handleRate wSt0 wBodyOk "1.1.1.1").2.counts ∧
      familiesGe wSt0.counts (handleRate wSt0 wBodyOk "1.1.1.1").2.counts) ∧
    (storeKept wSt0.counts
        (handleDownload wSt0 "1" (some "github.com") true 200).2.1.counts ∧
      familiesGe wSt0.counts
        (handleDownload wSt0 "1" (some "github.com") true 200).2.1.counts) ∧
    (storeKept wSt0.counts (handleDownloadTrack wSt0 wTrackBody).2.counts ∧
      familiesGe wSt0.counts (handleDownloadTrack wSt0 wTrackBody).2.counts)) := by
  have hwf : wfCounts wSt0.counts := fun _ => ⟨Or.inl rfl, Or.inl rfl, Or.inl rfl⟩
  exact ⟨hwf,
    counters_monotone wSt0 wBodyOk wTrackBody "1.1.1.1" "1" (some "github.com")
      true 200 hwf⟩

end SRM
